import Mathlib

/-!
Verification of the Task-Management-App storage layer.

Shallow embedding of the repository code:
  - csv_manager.py     : row codec, table read/write, CRUD (class CSVManager)
  - models.py          : Task value object (from_dict / to_dict / validate)
  - app.py             : the PUT /api/tasks update endpoint (optimistic concurrency)
  - csv_export_import.py : CSV bulk input and backup deletion (class CSVExportImport)

Modelling conventions:
  - A Python dict flowing through the storage layer is a `Rec` with one
    `Option String` field per CSV column, where `none` stands for a key that is
    absent or holds Python None (the two are interchangeable for every access
    the modelled code performs, via dict.get and truthiness; the one spot that
    tests raw key presence is noted at `update_task`).  The extra dict key
    `_last_modified` used by app.py is the field `lastModified`; it is not a
    CSV column.
  - The table file is the list of its data rows, each row a list of cells
    (the csv module reads and writes a list of cells per line faithfully; the
    constant header row, the file locks and the write-to-temp-then-rename step
    carry no information at this level and are not modelled).
  - datetime.now().isoformat() and str(uuid.uuid4()) are environment inputs,
    passed as plain strings; a datetime object stored in a dict is represented
    by its isoformat string, which is exactly what _format_task_row emits for it.
  - Python str.strip() is `pyStrip` (ASCII whitespace, matching the data that
    flows here); truthiness of an optional string is `truthy`.
-/

namespace TaskApp

/-- Python truthiness of a value that is either None or a string. -/
def truthy : Option String → Bool
  | none => false
  | some s => s ≠ ""

/-- Python str.strip(): drop whitespace from both ends. -/
def pyStrip (s : String) : String :=
  String.mk (((s.toList.dropWhile Char.isWhitespace).reverse.dropWhile Char.isWhitespace).reverse)

/-- One cell of _parse_task_row: `value = row[i].strip() if row[i] else None`. -/
def parseCell (c : String) : Option String :=
  if c = "" then none else some (pyStrip c)

/-- A datetime cell of _parse_task_row: after the step above,
`task[header] = value.strip() if value and value.strip() else None`. -/
def parseCellDT (c : String) : Option String :=
  match parseCell c with
  | none => none
  | some v => if v = "" then none else some v

/-- One cell of _format_task_row for a non-datetime column:
`str(value) if value is not None else ""`. -/
def formatCell : Option String → String
  | none => ""
  | some s => s

/-- One cell of _format_task_row for a datetime column: a datetime object is
rendered by isoformat (represented here by the string itself); a truthy string
with truthy strip is rendered stripped; anything else as the empty cell. -/
def formatDT : Option String → String
  | none => ""
  | some s => if pyStrip s = "" then "" else pyStrip s

/-- A task dict as it flows through csv_manager.py: one optional string per
CSV column, plus the non-column dict key `_last_modified` used by app.py. -/
structure Rec where
  id : Option String
  task : Option String
  priority : Option String
  description : Option String
  created_date : Option String
  assignee : Option String
  opened_date : Option String
  status : Option String
  completion_date : Option String
  category : Option String
  tags : Option String
  lastModified : Option String
deriving DecidableEq, Repr

/-- CSVManager._parse_task_row: a row parses only at the exact column count
(11); each cell is parsed per column kind.  A parsed dict never holds the
`_last_modified` key. -/
def parse_task_row : List String → Option Rec
  | [c0, c1, c2, c3, c4, c5, c6, c7, c8, c9, c10] =>
    some { id := parseCell c0, task := parseCell c1, priority := parseCell c2,
           description := parseCell c3, created_date := parseCellDT c4,
           assignee := parseCell c5, opened_date := parseCellDT c6,
           status := parseCell c7, completion_date := parseCellDT c8,
           category := parseCell c9, tags := parseCell c10, lastModified := none }
  | _ => none

/-- CSVManager._format_task_row: one cell per header, in header order; the
`_last_modified` key is not a header and is dropped. -/
def format_task_row (r : Rec) : List String :=
  [formatCell r.id, formatCell r.task, formatCell r.priority,
   formatCell r.description, formatDT r.created_date, formatCell r.assignee,
   formatDT r.opened_date, formatCell r.status, formatDT r.completion_date,
   formatCell r.category, formatCell r.tags]

/-- The table file, as its list of data rows (cells per row). -/
abbrev Table := List (List String)

/-- Python `any(row)`: some cell is truthy (a nonempty string). -/
def rowAny (row : List String) : Bool :=
  row.any (fun c => decide (c ≠ ""))

/-- CSVManager.read_tasks: skip blank rows, parse the rest, silently skip rows
that fail to parse, in file order. -/
def read_tasks (t : Table) : List Rec :=
  t.filterMap (fun row => if rowAny row then parse_task_row row else none)

/-- CSVManager.write_tasks: the new file is the header plus one formatted row
per task (header and atomic-rename mechanics carry no information here). -/
def write_tasks (ts : List Rec) : Table :=
  ts.map format_task_row

/-- What one write/read cycle does to a non-datetime field (derived from the
codec): `parseCell (formatCell o)`. -/
def normField (o : Option String) : Option String :=
  parseCell (formatCell o)

/-- What one write/read cycle does to a datetime field (derived from the
codec): `parseCellDT (formatDT o)`. -/
def normFieldDT (o : Option String) : Option String :=
  parseCellDT (formatDT o)

/-- What one write/read cycle does to a whole record (derived from the codec). -/
def normRec (r : Rec) : Rec :=
  { id := normField r.id, task := normField r.task, priority := normField r.priority,
    description := normField r.description, created_date := normFieldDT r.created_date,
    assignee := normField r.assignee, opened_date := normFieldDT r.opened_date,
    status := normField r.status, completion_date := normFieldDT r.completion_date,
    category := normField r.category, tags := normField r.tags, lastModified := none }

/-- What one write/read cycle does to one record of the written list: blank
rows are dropped on read, others normalize. -/
def normKeep (r : Rec) : Option Rec :=
  if rowAny (format_task_row r) then some (normRec r) else none

instance : Inhabited Rec :=
  ⟨{ id := none, task := none, priority := none, description := none,
     created_date := none, assignee := none, opened_date := none, status := none,
     completion_date := none, category := none, tags := none, lastModified := none }⟩

/-- CSVManager.add_task.  `genId` is the str(uuid.uuid4()) the call would
draw, `now` the isoformat of the datetime.now() it would draw.  Returns the
assigned id and the new file on success; CSVManagerError (duplicate id) leaves
the file untouched. -/
def add_task (genId now : String) (table : Table) (d : Rec) : Except Unit (String × Table) :=
  let theId := match d.id with
    | some s => if s = "" then genId else s
    | none => genId
  let d1 : Rec := { d with id := some theId }
  let d2 : Rec := if truthy d1.created_date then d1 else { d1 with created_date := some now }
  let tasks := read_tasks table
  if tasks.any (fun t => decide (t.id = some theId)) then
    .error ()
  else
    .ok (theId, write_tasks (tasks ++ [d2]))

/-- CSVManager.update_task: find the first record with the given id; absent
means return False with no write; present means force the id, preserve the
stored created_date when the caller supplies none (the code tests raw key
presence there; every caller in this codebase passes the full 11-key dict with
a truthy created_date, so absent-or-None is a faithful reading), replace in
place, write. -/
def update_task (table : Table) (task_id : String) (d : Rec) : Bool × Table :=
  let tasks := read_tasks table
  match tasks.findIdx? (fun t => decide (t.id = some task_id)) with
  | none => (false, table)
  | some i =>
    let old := tasks.getD i default
    let d1 : Rec := { d with id := some task_id }
    let d2 : Rec := if d1.created_date = none then { d1 with created_date := old.created_date } else d1
    (true, write_tasks (tasks.set i d2))

/-- CSVManager.delete_task: keep every record whose id differs; if nothing was
removed return False with no write, else write the remainder. -/
def delete_task (table : Table) (task_id : String) : Bool × Table :=
  let tasks := read_tasks table
  let kept := tasks.filter (fun t => decide (¬ t.id = some task_id))
  if kept.length = tasks.length then (false, table)
  else (true, write_tasks kept)

/-- CSVManager.get_task_by_id: first record with the given id, else None. -/
def get_task_by_id (table : Table) (task_id : String) : Option Rec :=
  (read_tasks table).find? (fun t => decide (t.id = some task_id))

/-! ## models.py: the Task value object -/

/-- The external inputs of one request: the uuid the code would generate, the
isoformat of datetime.now(), and whether datetime.fromisoformat accepts a
given string (the datetime library is outside the program). -/
structure Env where
  genId : String
  now : String
  fromisoOk : String → Bool

/-- Python str.endswith, over the character lists. -/
def pyEndswith (s p : String) : Bool :=
  List.isSuffixOf p.toList s.toList

/-- Python `s[:-1]`: drop the last character. -/
def pyDropLast (s : String) : String :=
  String.mk s.toList.dropLast

/-- Python `s.replace("Z", "")`: remove every Z. -/
def pyRemoveZ (s : String) : String :=
  String.mk (s.toList.filter (fun c => !(c == 'Z')))

/-- Task._is_valid_datetime, with fromisoformat supplied by the environment. -/
def is_valid_datetime (env : Env) (s : String) : Bool :=
  if s = "" then false
  else if pyEndswith s "Z" then env.fromisoOk (pyDropLast s)
  else if s.toList.contains '+' || decide ((s.toList.filter (fun c => c = '-')).length > 2) then
    env.fromisoOk (pyRemoveZ s)
  else env.fromisoOk s

/-- Python str.isalnum(): nonempty and every character alphanumeric. -/
def pyIsalnum (s : String) : Bool :=
  s ≠ "" && s.toList.all Char.isAlphanum

/-- A tag with spaces, hyphens and underscores removed, as in
`tag.replace(" ", "").replace("-", "").replace("_", "")`. -/
def tagStripSpecial (s : String) : String :=
  String.mk (s.toList.filter (fun c => !(c == ' ' || c == '-' || c == '_')))

/-- Python `s.split(",")` on the character list. -/
def splitCommaList : List Char → List (List Char)
  | [] => [[]]
  | c :: rest =>
    let r := splitCommaList rest
    if c = ',' then [] :: r
    else
      match r with
      | [] => [[c]]
      | g :: gs => (c :: g) :: gs

/-- Python `s.split(",")`. -/
def pySplitComma (s : String) : List String :=
  (splitCommaList s.toList).map String.mk

/-- A Task instance after __init__ ran its defaulting: id and created_date are
always strings (uuid / now fill falsy inputs); the rest are whatever was
passed, possibly None. -/
structure TaskObj where
  id : String
  task : Option String
  priority : Option String
  description : Option String
  created_date : String
  assignee : Option String
  opened_date : Option String
  status : Option String
  completion_date : Option String
  category : Option String
  tags : Option String
deriving DecidableEq, Repr

/-- Task.validate: true when the error list ends up empty. -/
def validateOk (env : Env) (t : TaskObj) : Bool :=
  (truthy t.task && decide (pyStrip (t.task.getD "") ≠ "")) &&
  (!truthy t.task || decide ((pyStrip (t.task.getD "")).length ≤ 200)) &&
  decide (t.priority ∈ [some "Low", some "Medium", some "High", some "Critical"]) &&
  decide (t.status ∈ [some "Not Started", some "In Progress", some "Completed", some "On Hold"]) &&
  (!truthy t.description || decide ((t.description.getD "").length ≤ 1000)) &&
  (!truthy t.assignee || decide ((t.assignee.getD "").length ≤ 100)) &&
  (!truthy t.category || decide ((t.category.getD "").length ≤ 50)) &&
  (!truthy t.tags ||
    (decide ((t.tags.getD "").length ≤ 200) &&
     (pySplitComma (t.tags.getD "")).all (fun tg =>
        decide (pyStrip tg = "") || pyIsalnum (tagStripSpecial (pyStrip tg))))) &&
  (decide (t.created_date = "") || is_valid_datetime env t.created_date) &&
  (!truthy t.opened_date || is_valid_datetime env (t.opened_date.getD "")) &&
  (!truthy t.completion_date || is_valid_datetime env (t.completion_date.getD "")) &&
  (!decide (t.status = some "Completed") || truthy t.completion_date) &&
  (decide (t.status = some "Completed") || !truthy t.completion_date)

/-- A Python dict argument of Task.from_dict, restricted to the eleven keys
from_dict reads: the outer Option is key presence, the inner holds None or a
string.  Keys from_dict never reads (such as `_last_modified`) are dropped. -/
structure PyDict where
  id : Option (Option String)
  task : Option (Option String)
  priority : Option (Option String)
  description : Option (Option String)
  created_date : Option (Option String)
  assignee : Option (Option String)
  opened_date : Option (Option String)
  status : Option (Option String)
  completion_date : Option (Option String)
  category : Option (Option String)
  tags : Option (Option String)

/-- Python dict.get(key, default). -/
def pyGet (f : Option (Option String)) (d : Option String) : Option String :=
  match f with
  | some v => v
  | none => d

/-- Task.from_dict followed by __init__ (defaulting then validate); a
ValidationError is the error case. -/
def task_from_dict (env : Env) (d : PyDict) : Except Unit TaskObj :=
  let tid := match pyGet d.id none with
    | some s => if s = "" then env.genId else s
    | none => env.genId
  let created := match pyGet d.created_date none with
    | some s => if s = "" then env.now else s
    | none => env.now
  let t : TaskObj :=
    { id := tid, task := pyGet d.task (some ""), priority := pyGet d.priority (some "Medium"),
      description := pyGet d.description (some ""), created_date := created,
      assignee := pyGet d.assignee (some ""), opened_date := pyGet d.opened_date none,
      status := pyGet d.status (some "Not Started"), completion_date := pyGet d.completion_date none,
      category := pyGet d.category (some ""), tags := pyGet d.tags (some "") }
  if validateOk env t then .ok t else .error ()

/-- Task.to_dict: the eleven schema keys, no `_last_modified`. -/
def task_to_dict (t : TaskObj) : Rec :=
  { id := some t.id, task := t.task, priority := t.priority,
    description := t.description, created_date := some t.created_date,
    assignee := t.assignee, opened_date := t.opened_date, status := t.status,
    completion_date := t.completion_date, category := t.category, tags := t.tags,
    lastModified := none }

/-- The core of the POST /api/tasks handler: Task.from_dict, then
CSVManager.add_task on the validated dict. -/
def create_task_flow (env : Env) (table : Table) (d : PyDict) : Except Unit (String × Table) :=
  match task_from_dict env d with
  | .error e => .error e
  | .ok t => add_task env.genId env.now table (task_to_dict t)

/-! ## app.py: the PUT /api/tasks update endpoint -/

/-- The JSON body of a PUT request: present keys carry strings (the flows
modelled here never send JSON null). -/
structure UpdateData where
  id : Option String
  task : Option String
  priority : Option String
  description : Option String
  created_date : Option String
  assignee : Option String
  opened_date : Option String
  status : Option String
  completion_date : Option String
  category : Option String
  tags : Option String
  lastModified : Option String
deriving DecidableEq, Repr

/-- Python `not data` on the request body: the empty dict. -/
def updDataEmpty (d : UpdateData) : Bool :=
  d.id = none && d.task = none && d.priority = none && d.description = none &&
  d.created_date = none && d.assignee = none && d.opened_date = none &&
  d.status = none && d.completion_date = none && d.category = none &&
  d.tags = none && d.lastModified = none

/-- `updated_data = existing_task.copy(); updated_data.update(data)` for one
key: the existing value (which the stored record always has, possibly None)
unless the body supplies the key. -/
def mergeField (e : Option String) (d : Option String) : Option (Option String) :=
  some (match d with
    | some s => some s
    | none => e)

/-- The merged dict handed to Task.from_dict by the update endpoint, with the
id forced back to the path id.  The `_last_modified` stamp the endpoint also
writes into this dict is dropped here because from_dict does not read it and
to_dict does not emit it. -/
def mergedDict (existing : Rec) (data : UpdateData) (task_id : String) : PyDict :=
  { id := some (some task_id),
    task := mergeField existing.task data.task,
    priority := mergeField existing.priority data.priority,
    description := mergeField existing.description data.description,
    created_date := mergeField existing.created_date data.created_date,
    assignee := mergeField existing.assignee data.assignee,
    opened_date := mergeField existing.opened_date data.opened_date,
    status := mergeField existing.status data.status,
    completion_date := mergeField existing.completion_date data.completion_date,
    category := mergeField existing.category data.category,
    tags := mergeField existing.tags data.tags }

/-- The responses the update endpoint can produce (offline mode and malformed
JSON aside). -/
inductive UResp where
  | noData
  | notFound
  | conflict (server : Rec)
  | invalid
  | success (task : Rec)
deriving DecidableEq, Repr

/-- app.update_task (PUT /api/tasks): not-found check, the optimistic
concurrency check on `_last_modified` (a plain string comparison, both sides
required truthy), merge, validate, store. -/
def update_task_endpoint (env : Env) (table : Table) (task_id : String)
    (data : UpdateData) : UResp × Table :=
  if updDataEmpty data then (.noData, table)
  else
    match get_task_by_id table task_id with
    | none => (.notFound, table)
    | some existing =>
      if truthy data.lastModified && truthy existing.lastModified &&
          decide ((data.lastModified.getD "") < (existing.lastModified.getD "")) then
        (.conflict existing, table)
      else
        match task_from_dict env (mergedDict existing data task_id) with
        | .error _ => (.invalid, table)
        | .ok t =>
          let td := task_to_dict t
          match update_task table task_id td with
          | (true, table1) => (.success td, table1)
          | (false, table1) => (.notFound, table1)

/-! ## csv_export_import.py: bulk CSV input and backup deletion -/

/-- One row as csv.DictReader yields it: header name paired with the cell, a
missing trailing cell being None (restval).  The key-None entry DictReader
uses for overlong rows is filtered out by the `if key` guard in the code and
is not represented. -/
abbrev InputRow := List (String × Option String)

/-- Store one cleaned key into the growing task dict; keys outside the schema
are kept by the code but read by nothing downstream, so they are dropped. -/
def setField (r : Rec) (k v : String) : Rec :=
  if k = "id" then { r with id := some v }
  else if k = "task" then { r with task := some v }
  else if k = "priority" then { r with priority := some v }
  else if k = "description" then { r with description := some v }
  else if k = "created_date" then { r with created_date := some v }
  else if k = "assignee" then { r with assignee := some v }
  else if k = "opened_date" then { r with opened_date := some v }
  else if k = "status" then { r with status := some v }
  else if k = "completion_date" then { r with completion_date := some v }
  else if k = "category" then { r with category := some v }
  else if k = "tags" then { r with tags := some v }
  else if k = "_last_modified" then { r with lastModified := some v }
  else r

/-- The per-row cleanup loop: skip falsy keys and None values, strip the key,
strip truthy values (a falsy value becomes the empty string). -/
def cleanRow (row : InputRow) : Rec :=
  row.foldl (fun r kv =>
    match kv.2 with
    | none => r
    | some v => if kv.1 = "" then r else setField r (pyStrip kv.1) (if v = "" then "" else pyStrip v))
    default

/-- The defaulting applied to a row that passed the title check: setdefault
for the enum and text fields, and a created_date stamp when falsy. -/
def processRow (now : String) (r : Rec) : Rec :=
  let r := if r.priority = none then { r with priority := some "Medium" } else r
  let r := if r.status = none then { r with status := some "Not Started" } else r
  let r := if r.description = none then { r with description := some "" } else r
  let r := if r.assignee = none then { r with assignee := some "" } else r
  let r := if r.category = none then { r with category := some "" } else r
  let r := if r.tags = none then { r with tags := some "" } else r
  if truthy r.created_date then r else { r with created_date := some now }

/-- The row loop of the CSV import: rows are numbered from 2 (the header is
row 1); a row whose cleaned dict has no truthy `task` becomes an error entry
carrying its row number, every other row is defaulted and collected. -/
def scanRows (now : String) : List InputRow → Nat → List (Nat × Rec) × List Rec
  | [], _ => ([], [])
  | row :: rest, i =>
    let td := cleanRow row
    if truthy td.task then
      let p := scanRows now rest (i + 1)
      (p.1, processRow now td :: p.2)
    else
      let p := scanRows now rest (i + 1)
      ((i, td) :: p.1, p.2)

/-- The append-mode loop `for task in new_tasks: add_task(task)`: each call
draws one fresh uuid (gen applied to the loop index) and re-reads the file; a
CSVManagerError aborts the import, leaving the adds already done in place. -/
def addLoop (gen : Nat → String) (now : String) : Table → List Rec → Nat → Bool × Table
  | table, [], _ => (true, table)
  | table, t :: rest, i =>
    match add_task (gen i) now table t with
    | .error _ => (false, table)
    | .ok (_, table1) => addLoop gen now table1 rest (i + 1)

/-- The result dict of the CSV import (error and skipped details reduced to
what the claims read: the row numbers of the error entries). -/
structure ImpRes where
  numImported : Nat
  numSkipped : Nat
  numErrors : Nat
  backup : Table
  errorRows : List Nat
deriving DecidableEq, Repr

/-- CSVExportImport.import_tasks_from_csv: back up the current file first,
scan the rows, then either replace the whole table with the collected rows or
append them one by one, skipping ids already present.  The error case is the
wrapped exception of a failing append-mode add_task. -/
def imp_tasks_from_csv (gen : Nat → String) (now : String) (table : Table)
    (rows : List InputRow) (replace_existing : Bool) : Except Unit ImpRes × Table :=
  let backup := table
  let scanned := scanRows now rows 2
  let error_tasks := scanned.1
  let collected := scanned.2
  if replace_existing then
    (.ok { numImported := collected.length, numSkipped := 0, numErrors := error_tasks.length,
           backup := backup, errorRows := error_tasks.map (·.1) },
     write_tasks collected)
  else
    let existing_ids := (read_tasks table).map (·.id)
    let new_tasks := collected.filter (fun r => !decide (r.id ∈ existing_ids))
    let skipped_tasks := collected.filter (fun r => decide (r.id ∈ existing_ids))
    match addLoop gen now table new_tasks 0 with
    | (true, table1) =>
      (.ok { numImported := new_tasks.length, numSkipped := skipped_tasks.length,
             numErrors := error_tasks.length, backup := backup,
             errorRows := error_tasks.map (·.1) },
       table1)
    | (false, table1) => (.error (), table1)

/-- Python str.startswith, over the character lists. -/
def pyStartswith (s p : String) : Bool :=
  List.isPrefixOf p.toList s.toList

/-- The filesystem as seen by delete_backup: os.path.abspath (resolution
against the working directory) and the set of existing files, stored by
absolute path. -/
structure FSEnv where
  abspath : String → String
  files : List String

/-- CSVExportImport.delete_backup: a nonexistent path returns False before
anything else; then the containment check compares absolute paths with
startswith; only past both is the file removed.  Errors (the invalid-path
raise, rewrapped by the catch-all) are the error case. -/
def delete_backup (fs : FSEnv) (backup_dir : String) (path : String) :
    Except Unit Bool × List String :=
  if fs.abspath path ∈ fs.files then
    if pyStartswith (fs.abspath path) (fs.abspath backup_dir) then
      (.ok true, fs.files.filter (fun q => decide (q ≠ fs.abspath path)))
    else
      (.error (), fs.files)
  else
    (.ok false, fs.files)

/-! ## Codec lemmas shared by the claims -/

/-- Parsing a formatted row always succeeds and yields the normalized record. -/
theorem parse_format (r : Rec) : parse_task_row (format_task_row r) = some (normRec r) := rfl

/-- One write/read cycle of the whole table, as a filterMap of the codec
normalization (blank-formatting records are dropped by the blank-row skip). -/
theorem read_write (l : List Rec) : read_tasks (write_tasks l) = l.filterMap normKeep := by
  induction l with
  | nil => rfl
  | cons a l ih =>
    simp only [write_tasks, List.map_cons, read_tasks, List.filterMap_cons] at ih ⊢
    rw [parse_format]
    simp only [normKeep]
    cases hA : rowAny (format_task_row a) <;> simp [hA, ih]

/-- A record with a truthy title formats to a non-blank row. -/
theorem rowAny_format_of_task {r : Rec} (h : truthy r.task = true) :
    rowAny (format_task_row r) = true := by
  cases hr : r.task with
  | none => rw [hr] at h; simp [truthy] at h
  | some s =>
    rw [hr] at h
    simp only [truthy, decide_eq_true_eq] at h
    simp only [rowAny, format_task_row, List.any_cons, List.any_nil, Bool.or_eq_true,
      decide_eq_true_eq]
    exact Or.inr (Or.inl (by simp [hr, formatCell, h]))

/-- A record with a truthy id formats to a non-blank row. -/
theorem rowAny_format_of_id {r : Rec} (h : truthy r.id = true) :
    rowAny (format_task_row r) = true := by
  cases hr : r.id with
  | none => rw [hr] at h; simp [truthy] at h
  | some s =>
    rw [hr] at h
    simp only [truthy, decide_eq_true_eq] at h
    simp only [rowAny, format_task_row, List.any_cons, List.any_nil, Bool.or_eq_true,
      decide_eq_true_eq]
    exact Or.inl (by simp [hr, formatCell, h])

/-- Records that are fixpoints of the codec normalization and have a truthy
title survive a write/read cycle untouched. -/
theorem filterMap_normKeep_self {l : List Rec}
    (h : ∀ r ∈ l, normRec r = r ∧ truthy r.task = true) :
    l.filterMap normKeep = l := by
  induction l with
  | nil => rfl
  | cons a l ih =>
    have ha := h a (by simp)
    have ih2 := ih (fun r hr => h r (by simp [hr]))
    simp [List.filterMap_cons, normKeep, rowAny_format_of_task ha.2, ha.1, ih2]

/-- Inversion of the row parser: success pins the row to exactly eleven cells
and the record to the per-cell parses, with no `_last_modified` key. -/
theorem parse_task_row_inv {row : List String} {r : Rec} (h : parse_task_row row = some r) :
    ∃ c0 c1 c2 c3 c4 c5 c6 c7 c8 c9 c10,
      row = [c0, c1, c2, c3, c4, c5, c6, c7, c8, c9, c10] ∧
      r = { id := parseCell c0, task := parseCell c1, priority := parseCell c2,
            description := parseCell c3, created_date := parseCellDT c4,
            assignee := parseCell c5, opened_date := parseCellDT c6,
            status := parseCell c7, completion_date := parseCellDT c8,
            category := parseCell c9, tags := parseCell c10, lastModified := none } := by
  unfold parse_task_row at h
  split at h
  · exact ⟨_, _, _, _, _, _, _, _, _, _, _, rfl, (Option.some.inj h).symm⟩
  · cases h

/-- Every record produced by read_tasks is the parse of some row of the file. -/
theorem mem_read_tasks {t : Table} {r : Rec} (h : r ∈ read_tasks t) :
    ∃ row ∈ t, parse_task_row row = some r := by
  unfold read_tasks at h
  obtain ⟨row, hrow, hp⟩ := List.mem_filterMap.mp h
  refine ⟨row, hrow, ?_⟩
  by_cases hA : rowAny row = true
  · simpa [hA] using hp
  · simp [hA] at hp

/-- A record read back from the file never carries the `_last_modified` key. -/
theorem read_tasks_lastModified {t : Table} {r : Rec} (h : r ∈ read_tasks t) :
    r.lastModified = none := by
  obtain ⟨row, _, hp⟩ := mem_read_tasks h
  obtain ⟨_, _, _, _, _, _, _, _, _, _, _, _, hr⟩ := parse_task_row_inv hp
  rw [hr]

/-- A record found by get_task_by_id never carries the `_last_modified` key. -/
theorem get_task_by_id_lastModified {t : Table} {i : String} {r : Rec}
    (h : get_task_by_id t i = some r) : r.lastModified = none :=
  read_tasks_lastModified (List.mem_of_find?_eq_some h)

/-- A field of a read-back record: absent, or the strip of a nonempty cell. -/
def strippedOpt (o : Option String) : Prop :=
  o = none ∨ ∃ c, c ≠ "" ∧ o = some (pyStrip c)

/-- The shape of every record read_tasks returns: each of the eleven fields is
absent or the stripped form of a nonempty cell, the three timestamp fields are
never the empty string, and there is no `_last_modified` key. -/
def ReadShape (r : Rec) : Prop :=
  (strippedOpt r.id ∧ strippedOpt r.task ∧ strippedOpt r.priority ∧
   strippedOpt r.description ∧ strippedOpt r.created_date ∧ strippedOpt r.assignee ∧
   strippedOpt r.opened_date ∧ strippedOpt r.status ∧ strippedOpt r.completion_date ∧
   strippedOpt r.category ∧ strippedOpt r.tags) ∧
  r.created_date ≠ some "" ∧ r.opened_date ≠ some "" ∧ r.completion_date ≠ some "" ∧
  r.lastModified = none

theorem strippedOpt_parseCell (c : String) : strippedOpt (parseCell c) := by
  by_cases h : c = ""
  · left; simp [parseCell, h]
  · right; exact ⟨c, h, by simp [parseCell, h]⟩

theorem parseCell_eq_some {c v : String} (h : parseCell c = some v) :
    c ≠ "" ∧ v = pyStrip c := by
  by_cases hc : c = ""
  · rw [hc] at h; simp [parseCell] at h
  · rw [parseCell, if_neg hc] at h
    exact ⟨hc, (Option.some.inj h).symm⟩

theorem strippedOpt_parseCellDT (c : String) : strippedOpt (parseCellDT c) := by
  unfold parseCellDT
  cases hp : parseCell c with
  | none => left; rfl
  | some v =>
    by_cases hv : v = ""
    · left; simp [hv]
    · right
      obtain ⟨hc, hvc⟩ := parseCell_eq_some hp
      subst hvc
      exact ⟨c, hc, by simp [hv]⟩

theorem parseCellDT_ne_empty (c : String) : parseCellDT c ≠ some "" := by
  unfold parseCellDT
  cases hp : parseCell c with
  | none => simp
  | some v => by_cases hv : v = "" <;> simp [hv]

/-! ## The claims -/

/-- C4: update on an id absent from the stored records reports not-found (the
False return that the HTTP layer maps to a NotFound response) and leaves the
table file completely unchanged, with no write. -/
theorem update_task_absent_notfound (table : Table) (task_id : String) (d : Rec)
    (h : ∀ r ∈ read_tasks table, r.id ≠ some task_id) :
    update_task table task_id d = (false, table) := by
  have hidx : (read_tasks table).findIdx? (fun t => decide (t.id = some task_id)) = none := by
    rw [List.findIdx?_eq_none_iff]
    intro x hx
    simpa using h x hx
  simp [update_task, hidx]

/-- C4 witness: a concrete one-record table and a missing id. -/
theorem update_task_absent_notfound_witness :
    update_task [["a", "t", "", "", "", "", "", "", "", "", ""]] "zzz" default =
      (false, [["a", "t", "", "", "", "", "", "", "", "", ""]]) :=
  update_task_absent_notfound _ _ _ (by decide)

/-- C2: delete_backup does not behave as claimed.  First, the containment
check is a raw string test on absolute paths, so an existing file in the
sibling directory backups_evil, which is outside the backup directory, passes
the check and is removed with True instead of failing with InvalidPath.
Second, a path outside the backup directory that does not exist returns False
instead of failing with InvalidPath, because the existence check runs first. -/
theorem delete_backup_containment_bypassed :
    (delete_backup
        { abspath := fun s => if pyStartswith s "/" then s else "/app/" ++ s,
          files := ["/app/backups_evil/tasks_backup_x.csv"] }
        "backups" "backups_evil/tasks_backup_x.csv" = (.ok true, [])) ∧
    (delete_backup
        { abspath := fun s => if pyStartswith s "/" then s else "/app/" ++ s,
          files := ["/app/backups_evil/tasks_backup_x.csv"] }
        "backups" "/etc/passwd" = (.ok false, ["/app/backups_evil/tasks_backup_x.csv"])) := by
  constructor <;> rfl

/-- C10 amended: every record returned by read_tasks has each field either
absent or equal to the stripped form of a nonempty cell, empty cells parse to
the absent value in every column, and the three timestamp fields are never
the empty string; but a whitespace-only cell in a non-timestamp column parses
to the empty string, so empty-string fields do occur (see the
counterexample). -/
theorem read_tasks_field_normalization :
    (∀ (table : Table) (r : Rec), r ∈ read_tasks table → ReadShape r) ∧
    (∀ (c0 c1 c2 c3 c4 c5 c6 c7 c8 c9 c10 : String) (r : Rec),
      parse_task_row [c0, c1, c2, c3, c4, c5, c6, c7, c8, c9, c10] = some r →
      (c0 = "" → r.id = none) ∧ (c1 = "" → r.task = none) ∧
      (c2 = "" → r.priority = none) ∧ (c3 = "" → r.description = none) ∧
      (c4 = "" → r.created_date = none) ∧ (c5 = "" → r.assignee = none) ∧
      (c6 = "" → r.opened_date = none) ∧ (c7 = "" → r.status = none) ∧
      (c8 = "" → r.completion_date = none) ∧ (c9 = "" → r.category = none) ∧
      (c10 = "" → r.tags = none)) := by
  constructor
  · intro table r h
    obtain ⟨row, _, hp⟩ := mem_read_tasks h
    obtain ⟨c0, c1, c2, c3, c4, c5, c6, c7, c8, c9, c10, _, hr⟩ := parse_task_row_inv hp
    subst hr
    exact ⟨⟨strippedOpt_parseCell c0, strippedOpt_parseCell c1, strippedOpt_parseCell c2,
            strippedOpt_parseCell c3, strippedOpt_parseCellDT c4, strippedOpt_parseCell c5,
            strippedOpt_parseCellDT c6, strippedOpt_parseCell c7, strippedOpt_parseCellDT c8,
            strippedOpt_parseCell c9, strippedOpt_parseCell c10⟩,
          parseCellDT_ne_empty c4, parseCellDT_ne_empty c6, parseCellDT_ne_empty c8, rfl⟩
  · intro c0 c1 c2 c3 c4 c5 c6 c7 c8 c9 c10 r h
    simp only [parse_task_row, Option.some.injEq] at h
    subst h
    refine ⟨?_, ?_, ?_, ?_, ?_, ?_, ?_, ?_, ?_, ?_, ?_⟩ <;>
      (intro hc; simp [hc, parseCell, parseCellDT])

/-- C10 witness: the shape result at a concrete table, and the empty-cell
result at a concrete row. -/
theorem read_tasks_field_normalization_witness :
    ReadShape { id := some "a", task := some "t", priority := some "", description := none,
                created_date := none, assignee := none, opened_date := none, status := none,
                completion_date := none, category := none, tags := none,
                lastModified := none } ∧
    ({ id := some "x", task := none, priority := none, description := none,
       created_date := none, assignee := none, opened_date := none, status := none,
       completion_date := none, category := none, tags := none,
       lastModified := none } : Rec).task = none := by
  constructor
  · exact read_tasks_field_normalization.1
      [["a", "t", "  ", "", "", "", "", "", "", "", ""]] _ (by decide)
  · exact (read_tasks_field_normalization.2 "x" "" "" "" "" "" "" "" "" "" "" _ (by decide)).2.1 rfl

/-- C10 counterexample: a whitespace-only priority cell comes back from
read_tasks as the empty string, not as the absent value, so records returned
by read_tasks can contain an empty-string field. -/
theorem read_tasks_empty_string_field :
    (read_tasks [["a", "t", "  ", "", "", "", "", "", "", "", ""]]).map (·.priority) =
      [some ""] ∧ ("  " : String) ≠ "" := by
  constructor <;> decide

theorem truthy_none : truthy none = false := rfl

/-- Whether the update endpoint answered with a success response. -/
def isSuccess : UResp → Bool
  | .success _ => true
  | _ => false

/-- A PUT body with no keys set. -/
def noBody : UpdateData :=
  { id := none, task := none, priority := none, description := none, created_date := none,
    assignee := none, opened_date := none, status := none, completion_date := none,
    category := none, tags := none, lastModified := none }

/-- C1: a stale `_last_modified` is NOT rejected.  The conflict response is
unreachable for every table, body and environment, because the stored record
read back from the CSV never carries `_last_modified` (to_dict and
_format_task_row both drop it), and the check requires the server copy to be
truthy.  Concretely: after a successful update stamped at 2024-01-02, a second
update carrying the older timestamp 2020-01-01 is applied and answered with
success, overwriting the record, instead of being rejected as a conflict with
the record unchanged. -/
theorem update_stale_timestamp_not_rejected :
    (∀ (env : Env) (table : Table) (task_id : String) (data : UpdateData)
        (server : Rec) (t1 : Table),
        update_task_endpoint env table task_id data ≠ (UResp.conflict server, t1)) ∧
    (let env1 : Env := { genId := "g1", now := "2024-01-02", fromisoOk := fun _ => true }
     let env2 : Env := { genId := "g2", now := "2024-01-03", fromisoOk := fun _ => true }
     let table0 : Table :=
       [["a", "t", "Medium", "", "2024-01-01", "", "", "Not Started", "", "", ""]]
     let out1 := update_task_endpoint env1 table0 "a" { noBody with task := some "t2" }
     let out2 := update_task_endpoint env2 out1.2 "a"
       { noBody with task := some "t3", lastModified := some "2020-01-01" }
     isSuccess out1.1 = true ∧ isSuccess out2.1 = true ∧
     (get_task_by_id out2.2 "a").map (·.task) = some (some "t3")) := by
  constructor
  · intro env table task_id data server t1 hEq
    unfold update_task_endpoint at hEq
    by_cases hE : updDataEmpty data = true
    · rw [if_pos hE] at hEq; simp at hEq
    · rw [if_neg hE] at hEq
      cases hget : get_task_by_id table task_id with
      | none => simp only [hget] at hEq; simp at hEq
      | some ex =>
        simp only [hget] at hEq
        have hLM : ex.lastModified = none := get_task_by_id_lastModified hget
        rw [if_neg (by simp [hLM, truthy_none])] at hEq
        cases hfd : task_from_dict env (mergedDict ex data task_id) with
        | error e => simp only [hfd] at hEq; simp at hEq
        | ok t =>
          simp only [hfd] at hEq
          rcases hup : update_task table task_id (task_to_dict t) with ⟨b, tb⟩
          simp only [hup] at hEq
          cases b <;> simp at hEq
  · refine ⟨by decide, by decide, by decide⟩

/-- A task exactly as the validation layer produces it for a minimal valid
input: required title supplied, defaults everywhere else (empty strings for
the text fields, no optional dates). -/
def sampleTask : TaskObj :=
  { id := "a", task := some "t", priority := some "Medium", description := some "",
    created_date := "2024-01-01", assignee := some "", opened_date := none,
    status := some "Not Started", completion_date := none, category := some "",
    tags := some "" }

/-- C5 counterexample: a record that passes validation (so is a valid record)
does not survive the write/read round trip, and the difference is in the
description field, which is not a timestamp field: its empty string comes
back as the absent value. -/
theorem roundtrip_changes_non_timestamp_field :
    validateOk { genId := "g", now := "2024-01-01", fromisoOk := fun _ => true } sampleTask
      = true ∧
    (task_to_dict sampleTask).description = some "" ∧
    read_tasks (write_tasks [task_to_dict sampleTask]) ≠ [task_to_dict sampleTask] ∧
    (read_tasks (write_tasks [task_to_dict sampleTask])).map (·.description) = [none] := by
  refine ⟨by decide, by decide, by decide, by decide⟩

/-- C5 amended: write_tasks then read_tasks is the identity on lists of
records that are fixpoints of the codec normalization (every field absent or
a nonempty whitespace-trimmed string) and have a truthy title.  Outside that
set the round trip trims fields and collapses empty strings to the absent
value, and this also changes non-timestamp fields (see the counterexample). -/
theorem write_read_roundtrip (recs : List Rec)
    (h : ∀ r ∈ recs, normRec r = r ∧ truthy r.task = true) :
    read_tasks (write_tasks recs) = recs := by
  rw [read_write]
  exact filterMap_normKeep_self h

/-- C5 witness: a concrete normalized record round-trips unchanged. -/
theorem write_read_roundtrip_witness :
    read_tasks (write_tasks
      [{ id := some "a", task := some "t", priority := some "Medium", description := none,
         created_date := some "2024-01-01", assignee := none, opened_date := none,
         status := some "Not Started", completion_date := none, category := none,
         tags := none, lastModified := none }]) =
      [{ id := some "a", task := some "t", priority := some "Medium", description := none,
         created_date := some "2024-01-01", assignee := none, opened_date := none,
         status := some "Not Started", completion_date := none, category := none,
         tags := none, lastModified := none }] :=
  write_read_roundtrip _ (by decide)

/-- C6 counterexample: on a table holding two records with the same id (a
state the replace-mode import can produce), delete on that id removes both
records, so the record count decreases by two, not exactly one. -/
theorem delete_task_removes_two :
    (read_tasks [["a", "t", "", "", "", "", "", "", "", "", ""],
                 ["a", "u", "", "", "", "", "", "", "", "", ""]]).length = 2 ∧
    delete_task [["a", "t", "", "", "", "", "", "", "", "", ""],
                 ["a", "u", "", "", "", "", "", "", "", "", ""]] "a" = (true, []) ∧
    read_tasks (delete_task [["a", "t", "", "", "", "", "", "", "", "", ""],
                 ["a", "u", "", "", "", "", "", "", "", "", ""]] "a").2 = [] := by
  refine ⟨by decide, by decide, by decide⟩

/-- Dropping the matches of a predicate removes exactly as many elements as
there are matches. -/
theorem length_filter_not_add_countP {α : Type} (p : α → Bool) (l : List α) :
    (l.filter (fun a => !p a)).length + l.countP p = l.length := by
  induction l with
  | nil => rfl
  | cons a l ih =>
    cases hp : p a
    · simp only [List.filter_cons, hp, List.countP_cons, ih]
      simp
      omega
    · simp only [List.filter_cons, hp, List.countP_cons, ih]
      simp
      omega

/-- C6 amended: delete on an id absent from the table reports not-found (the
False return mapped to NotFound upstream) and leaves the file untouched; on a
table whose records are codec-normal with truthy titles and where the id
occurs exactly once, delete succeeds, the surviving records are exactly the
original sequence minus the single match, unaltered and in order, and the
count decreases by exactly one.  Without the single-occurrence restriction
the code removes every record with the id (see the counterexample). -/
theorem delete_task_notfound_and_frame (table : Table) (task_id : String) :
    ((∀ r ∈ read_tasks table, r.id ≠ some task_id) →
      delete_task table task_id = (false, table)) ∧
    ((∀ r ∈ read_tasks table, normRec r = r ∧ truthy r.task = true) →
     (read_tasks table).countP (fun r => decide (r.id = some task_id)) = 1 →
     (delete_task table task_id).1 = true ∧
     read_tasks (delete_task table task_id).2 =
       (read_tasks table).filter (fun r => decide (¬ r.id = some task_id)) ∧
     (read_tasks (delete_task table task_id).2).length + 1 =
       (read_tasks table).length) := by
  constructor
  · intro h
    have hf : (read_tasks table).filter (fun t => decide (¬ t.id = some task_id)) =
        read_tasks table := by
      rw [List.filter_eq_self]
      intro a ha
      simpa using h a ha
    simp only [delete_task]
    rw [hf, if_pos rfl]
  · intro hN hC
    have hfn : (fun t : Rec => decide (¬ t.id = some task_id)) =
        (fun t : Rec => !decide (t.id = some task_id)) := by
      funext t
      exact decide_not
    have hlen := length_filter_not_add_countP
      (fun r : Rec => decide (r.id = some task_id)) (read_tasks table)
    rw [← hfn, hC] at hlen
    have hne : ¬ ((read_tasks table).filter
        (fun t => decide (¬ t.id = some task_id))).length = (read_tasks table).length := by
      omega
    have hkept : ∀ r ∈ (read_tasks table).filter (fun t => decide (¬ t.id = some task_id)),
        normRec r = r ∧ truthy r.task = true :=
      fun r hr => hN r (List.mem_of_mem_filter hr)
    refine ⟨?_, ?_, ?_⟩
    · simp only [delete_task]
      rw [if_neg hne]
    · simp only [delete_task]
      rw [if_neg hne]
      rw [read_write]
      exact filterMap_normKeep_self hkept
    · simp only [delete_task]
      rw [if_neg hne, read_write, filterMap_normKeep_self hkept]
      exact hlen

/-- C6 witness: both branches at a concrete two-record table. -/
theorem delete_task_notfound_and_frame_witness :
    delete_task [["a", "t", "", "", "", "", "", "", "", "", ""],
                 ["b", "u", "", "", "", "", "", "", "", "", ""]] "zzz" =
      (false, [["a", "t", "", "", "", "", "", "", "", "", ""],
               ["b", "u", "", "", "", "", "", "", "", "", ""]]) ∧
    (delete_task [["a", "t", "", "", "", "", "", "", "", "", ""],
                  ["b", "u", "", "", "", "", "", "", "", "", ""]] "a").1 = true ∧
    read_tasks (delete_task [["a", "t", "", "", "", "", "", "", "", "", ""],
                  ["b", "u", "", "", "", "", "", "", "", "", ""]] "a").2 =
      (read_tasks [["a", "t", "", "", "", "", "", "", "", "", ""],
                   ["b", "u", "", "", "", "", "", "", "", "", ""]]).filter
        (fun r => decide (¬ r.id = some "a")) ∧
    (read_tasks (delete_task [["a", "t", "", "", "", "", "", "", "", "", ""],
                  ["b", "u", "", "", "", "", "", "", "", "", ""]] "a").2).length + 1 =
      (read_tasks [["a", "t", "", "", "", "", "", "", "", "", ""],
                   ["b", "u", "", "", "", "", "", "", "", "", ""]]).length := by
  refine ⟨(delete_task_notfound_and_frame _ _).1 (by decide), ?_⟩
  have h := (delete_task_notfound_and_frame
    [["a", "t", "", "", "", "", "", "", "", "", ""],
     ["b", "u", "", "", "", "", "", "", "", "", ""]] "a").2 (by decide) (by decide)
  exact ⟨h.1, h.2.1, h.2.2⟩

/-- Inversion of a successful add_task: the returned id is the resolved one
(caller id when truthy, else the generated uuid), no stored record carried
it, and the new file is the old records plus one appended record with it. -/
theorem add_task_ok {genId now : String} {table : Table} {d : Rec} {i : String} {t1 : Table}
    (h : add_task genId now table d = .ok (i, t1)) :
    (∀ r ∈ read_tasks table, ¬ r.id = some i) ∧
    ∃ d2 : Rec, d2.id = some i ∧ t1 = write_tasks (read_tasks table ++ [d2]) := by
  simp only [add_task] at h
  split at h
  · cases h
  · next hany =>
    simp only [Except.ok.injEq, Prod.mk.injEq] at h
    obtain ⟨hid, htab⟩ := h
    rw [Bool.not_eq_true, List.any_eq_false] at hany
    constructor
    · intro r hr
      have := hany r hr
      rw [hid] at this
      simpa using this
    · refine ⟨_, ?_, htab.symm⟩
      rw [← hid]
      split <;> rfl

/-- The ids surviving a write/read cycle form a sublist of the original ids,
provided every id is a fixpoint of the codec normalization. -/
theorem ids_filterMap_normKeep {l : List Rec} (h : ∀ r ∈ l, normField r.id = r.id) :
    ((l.filterMap normKeep).map (fun r => r.id)).Sublist (l.map (fun r => r.id)) := by
  induction l with
  | nil => simp
  | cons a l ih =>
    have ha := h a (List.mem_cons_self a l)
    have ih2 := ih (fun r hr => h r (List.mem_cons_of_mem a hr))
    rw [List.filterMap_cons]
    cases hk : normKeep a with
    | none =>
      simp only [List.map_cons]
      exact ih2.cons _
    | some b =>
      have hb : b.id = a.id := by
        have hbn : b = normRec a := by
          unfold normKeep at hk
          split at hk
          · exact (Option.some.inj hk).symm
          · cases hk
        rw [hbn]
        exact ha
      simp only [List.map_cons, hb]
      exact ih2.cons₂ _

/-- C3 amended: adding a record whose explicit id is already present, compared
exactly as strings, fails with the duplicate-id error and nothing is written;
and a successful add preserves id uniqueness whenever the resolved id is a
nonempty whitespace-trimmed string (generated uuids always are) and the
stored ids are fixpoints of the codec normalization.  Without the trimming
condition the duplicate check can be bypassed by surrounding whitespace (see
the counterexample), so the unrestricted never-two-equal-ids consequence is
false. -/
theorem add_task_duplicate_and_uniqueness :
    (∀ (genId now : String) (table : Table) (d : Rec) (s : String),
        d.id = some s → s ≠ "" → (∃ r ∈ read_tasks table, r.id = some s) →
        add_task genId now table d = .error ()) ∧
    (∀ (genId now : String) (table : Table) (d : Rec) (i : String) (t1 : Table),
        add_task genId now table d = .ok (i, t1) →
        pyStrip i = i → i ≠ "" →
        ((read_tasks table).map (fun r => r.id)).Nodup →
        (∀ r ∈ read_tasks table, normField r.id = r.id) →
        ((read_tasks t1).map (fun r => r.id)).Nodup) := by
  constructor
  · intro genId now table d s hid hs hex
    obtain ⟨r, hr, hrid⟩ := hex
    simp only [add_task, hid]
    rw [if_neg hs]
    have hany : (read_tasks table).any (fun t => decide (t.id = some s)) = true := by
      rw [List.any_eq_true]
      exact ⟨r, hr, by simp [hrid]⟩
    rw [if_pos hany]
  · intro genId now table d i t1 hok hstrip hne hnd hnorm
    obtain ⟨hfresh, d2, hd2, ht1⟩ := add_task_ok hok
    subst ht1
    rw [read_write, List.filterMap_append, List.map_append]
    have hd2keep : normKeep d2 = some (normRec d2) := by
      unfold normKeep
      rw [if_pos (rowAny_format_of_id (by rw [hd2]; simp [truthy, hne]))]
    have hsingle : (List.filterMap normKeep [d2]).map (fun r => r.id) = [some i] := by
      have h1 : List.filterMap normKeep [d2] = [normRec d2] := by
        simp [List.filterMap_cons, hd2keep]
      rw [h1, List.map_cons, List.map_nil]
      have h2 : (normRec d2).id = some i := by
        show normField d2.id = some i
        rw [hd2]
        simp [normField, formatCell, parseCell, hne, hstrip]
      rw [h2]
    rw [hsingle]
    have hsub := ids_filterMap_normKeep hnorm
    rw [List.nodup_append]
    refine ⟨hnd.sublist hsub, by simp, ?_⟩
    intro x hx1 hx2
    rw [List.mem_singleton] at hx2
    subst hx2
    obtain ⟨r, hr, hrid⟩ := List.mem_map.mp (hsub.subset hx1)
    exact hfresh r hr hrid

/-- C3 witness: the duplicate rejection and the uniqueness preservation at a
concrete one-record table. -/
theorem add_task_duplicate_and_uniqueness_witness :
    add_task "g" "2024-01-02"
        [["a", "t", "Medium", "", "2024-01-01", "", "", "Not Started", "", "", ""]]
        { (default : Rec) with id := some "a", task := some "u" } = .error () ∧
    ((read_tasks [["a", "t", "Medium", "", "2024-01-01", "", "", "Not Started", "", "", ""],
                  ["b", "u", "", "", "2024-01-02", "", "", "", "", "", ""]]).map
        (fun r => r.id)).Nodup := by
  constructor
  · exact add_task_duplicate_and_uniqueness.1 "g" "2024-01-02" _ _ "a" rfl (by decide)
      ⟨{ id := some "a", task := some "t", priority := some "Medium", description := none,
         created_date := some "2024-01-01", assignee := none, opened_date := none,
         status := some "Not Started", completion_date := none, category := none,
         tags := none, lastModified := none }, by decide, rfl⟩
  · exact add_task_duplicate_and_uniqueness.2 "g" "2024-01-02"
      [["a", "t", "Medium", "", "2024-01-01", "", "", "Not Started", "", "", ""]]
      { (default : Rec) with id := some "b", task := some "u" } "b"
      [["a", "t", "Medium", "", "2024-01-01", "", "", "Not Started", "", "", ""],
       ["b", "u", "", "", "2024-01-02", "", "", "", "", "", ""]]
      rfl (by decide) (by decide) (by decide) (by decide)

/-- C3 counterexample: a caller-supplied id that differs from a stored id only
by a leading space passes the duplicate check, and after the write/read round
trip the table holds two records with the same id, so a sequence of add
operations can produce a table with duplicate ids. -/
theorem add_task_whitespace_id_duplicate :
    add_task "g" "2024-01-02"
        [["a", "t", "Medium", "", "2024-01-01", "", "", "Not Started", "", "", ""]]
        { (default : Rec) with id := some " a", task := some "u", created_date := some "2024-01-02" } =
      .ok (" a",
        [["a", "t", "Medium", "", "2024-01-01", "", "", "Not Started", "", "", ""],
         [" a", "u", "", "", "2024-01-02", "", "", "", "", "", ""]]) ∧
    (read_tasks [["a", "t", "Medium", "", "2024-01-01", "", "", "Not Started", "", "", ""],
                 [" a", "u", "", "", "2024-01-02", "", "", "", "", "", ""]]).map
      (fun r => r.id) = [some "a", some "a"] ∧
    ¬ ([some "a", some "a"] : List (Option String)).Nodup := by
  refine ⟨rfl, by decide, by decide⟩

/-- C9: the replace-mode import writes the parsed rows to the table exactly
as parsed: a row keeps its explicit id with no duplicate check, within the
batch or against the old table, and an id-less row gets no generated id.  The
resulting table holds two records with the same id and one record with an
absent id, so the id-uniqueness invariant that add enforces is broken. -/
theorem replace_import_breaks_id_uniqueness :
    (imp_tasks_from_csv (fun _ => "G") "2024-01-01" []
        [[("id", some "x"), ("task", some "a")],
         [("id", some "x"), ("task", some "b")],
         [("task", some "c")]] true).1 =
      .ok { numImported := 3, numSkipped := 0, numErrors := 0, backup := [],
            errorRows := [] } ∧
    (read_tasks (imp_tasks_from_csv (fun _ => "G") "2024-01-01" []
        [[("id", some "x"), ("task", some "a")],
         [("id", some "x"), ("task", some "b")],
         [("task", some "c")]] true).2).map (fun r => r.id) =
      [some "x", some "x", none] ∧
    ¬ ([some "x", some "x", none] : List (Option String)).Nodup ∧
    none ∈ ([some "x", some "x", none] : List (Option String)) := by
  refine ⟨rfl, by decide, by decide, by decide⟩

/-- The error entries of the row scan, characterized: one entry per input row
whose cleaned dict lacks a truthy title, carrying the row number counted from
2 (the header is row 1). -/
theorem scanRows_fst (now : String) :
    ∀ (rows : List InputRow) (i : Nat),
      (scanRows now rows i).1 =
        ((List.enumFrom i rows).filter (fun p => !truthy (cleanRow p.2).task)).map
          (fun p => (p.1, cleanRow p.2)) := by
  intro rows
  induction rows with
  | nil => intro i; rfl
  | cons a l ih =>
    intro i
    rw [List.enumFrom_cons]
    cases h : truthy (cleanRow a).task
    · rw [List.filter_cons_of_pos (by simp [h])]
      simp only [scanRows, h, Bool.false_eq_true, if_false, List.map_cons]
      rw [ih (i + 1)]
    · rw [List.filter_cons_of_neg (by simp [h])]
      simp only [scanRows, h, if_true]
      rw [ih (i + 1)]

/-- The collected rows of the row scan, characterized: the rows with a truthy
title, cleaned and defaulted, in order. -/
theorem scanRows_snd (now : String) :
    ∀ (rows : List InputRow) (i : Nat),
      (scanRows now rows i).2 =
        (rows.filter (fun row => truthy (cleanRow row).task)).map
          (fun row => processRow now (cleanRow row)) := by
  intro rows
  induction rows with
  | nil => intro i; rfl
  | cons a l ih =>
    intro i
    cases h : truthy (cleanRow a).task
    · rw [List.filter_cons_of_neg (by simp [h])]
      simp only [scanRows, h, Bool.false_eq_true, if_false]
      rw [ih (i + 1)]
    · rw [List.filter_cons_of_pos (by simp [h])]
      simp only [scanRows, h, if_true, List.map_cons]
      rw [ih (i + 1)]

/-- Filtering an enumerated list on the elements keeps as many entries as
filtering the plain list. -/
theorem enumFrom_filter_snd_length {α : Type} (q : α → Bool) :
    ∀ (rows : List α) (i : Nat),
      ((List.enumFrom i rows).filter (fun p => q p.2)).length =
        (rows.filter q).length := by
  intro rows
  induction rows with
  | nil => intro i; rfl
  | cons a l ih =>
    intro i
    rw [List.enumFrom_cons]
    cases hq : q a
    · rw [List.filter_cons_of_neg (by simp [hq]), List.filter_cons_of_neg (by simp [hq])]
      exact ih (i + 1)
    · rw [List.filter_cons_of_pos (by simp [hq]), List.filter_cons_of_pos (by simp [hq])]
      simp [ih (i + 1)]

/-- C7: every CSV import that returns a result took its backup from the table
as it stood before any row was applied; it records one error entry per input
row whose cleaned dict lacks a truthy task title, carrying the 1-based row
number counted with the header as row 1 (so the first data row is row 2);
exactly the other rows are collected, and they are all imported: every one of
them in replace mode, and in append mode every one whose id does not collide
with a stored id (collisions are counted as skipped, never as errors). -/
theorem imp_tasks_backup_errors_and_counts
    (gen : Nat → String) (now : String) (table : Table) (rows : List InputRow)
    (replace_existing : Bool) (res : ImpRes) (t1 : Table)
    (h : imp_tasks_from_csv gen now table rows replace_existing = (.ok res, t1)) :
    res.backup = table ∧
    res.numErrors = (rows.filter (fun row => !truthy (cleanRow row).task)).length ∧
    res.errorRows = ((List.enumFrom 2 rows).filter
        (fun p => !truthy (cleanRow p.2).task)).map (fun p => p.1) ∧
    res.numImported + res.numSkipped =
      (rows.filter (fun row => truthy (cleanRow row).task)).length ∧
    (replace_existing = true →
      res.numSkipped = 0 ∧
      t1 = write_tasks ((rows.filter (fun row => truthy (cleanRow row).task)).map
        (fun row => processRow now (cleanRow row)))) ∧
    (replace_existing = false →
      (∀ row ∈ rows, truthy (cleanRow row).task = true →
        ¬ (processRow now (cleanRow row)).id ∈ (read_tasks table).map (fun r => r.id)) →
      res.numSkipped = 0) := by
  cases replace_existing with
  | true =>
    simp only [imp_tasks_from_csv, if_true] at h
    cases h
    refine ⟨rfl, ?_, ?_, ?_, fun _ => ⟨rfl, ?_⟩, fun hf _ => Bool.noConfusion hf⟩
    · show (scanRows now rows 2).1.length = _
      rw [scanRows_fst now rows 2, List.length_map]
      exact enumFrom_filter_snd_length (fun row => !truthy (cleanRow row).task) rows 2
    · show (scanRows now rows 2).1.map (fun p => p.1) = _
      rw [scanRows_fst now rows 2, List.map_map]
      rfl
    · show (scanRows now rows 2).2.length + 0 = _
      rw [scanRows_snd now rows 2, List.length_map, Nat.add_zero]
    · show write_tasks (scanRows now rows 2).2 = _
      rw [scanRows_snd now rows 2]
  | false =>
    simp only [imp_tasks_from_csv, Bool.false_eq_true, if_false] at h
    split at h
    case _ table1 hL =>
      cases h
      refine ⟨rfl, ?_, ?_, ?_, fun ht => Bool.noConfusion ht, fun _ hnocol => ?_⟩
      · show (scanRows now rows 2).1.length = _
        rw [scanRows_fst now rows 2, List.length_map]
        exact enumFrom_filter_snd_length (fun row => !truthy (cleanRow row).task) rows 2
      · show (scanRows now rows 2).1.map (fun p => p.1) = _
        rw [scanRows_fst now rows 2, List.map_map]
        rfl
      · show ((scanRows now rows 2).2.filter _).length + ((scanRows now rows 2).2.filter _).length = _
        have hsum := length_filter_not_add_countP
          (fun r : Rec => decide (r.id ∈ (read_tasks table).map (fun r => r.id)))
          (scanRows now rows 2).2
        rw [List.countP_eq_length_filter] at hsum
        rw [hsum, scanRows_snd now rows 2, List.length_map]
      · show ((scanRows now rows 2).2.filter _).length = 0
        have hnil : (scanRows now rows 2).2.filter
            (fun r => decide (r.id ∈ (read_tasks table).map (fun r => r.id))) = [] := by
          rw [List.filter_eq_nil_iff]
          intro a ha
          rw [scanRows_snd now rows 2] at ha
          obtain ⟨row, hrow, hae⟩ := List.mem_map.mp ha
          obtain ⟨hmem, hgood⟩ := List.mem_filter.mp hrow
          subst hae
          simpa using hnocol row hmem hgood
        rw [hnil]
        rfl
    case _ table1 hL =>
      simp at h

/-- C7 witness: a three-row append-mode import with one row missing the task
title: error count 1 with row number 3, both valid rows imported. -/
theorem imp_tasks_backup_errors_and_counts_witness :
    ({ numImported := 2, numSkipped := 0, numErrors := 1, backup := [],
       errorRows := [3] } : ImpRes).backup = ([] : Table) ∧
    ({ numImported := 2, numSkipped := 0, numErrors := 1, backup := [],
       errorRows := [3] } : ImpRes).numErrors =
      (([[("task", some "a")], [("task", some "")], [("task", some "b")]] :
          List InputRow).filter (fun row => !truthy (cleanRow row).task)).length ∧
    ({ numImported := 2, numSkipped := 0, numErrors := 1, backup := [],
       errorRows := [3] } : ImpRes).errorRows =
      ((List.enumFrom 2 ([[("task", some "a")], [("task", some "")],
          [("task", some "b")]] : List InputRow)).filter
        (fun p => !truthy (cleanRow p.2).task)).map (fun p => p.1) ∧
    ({ numImported := 2, numSkipped := 0, numErrors := 1, backup := [],
       errorRows := [3] } : ImpRes).numImported +
      ({ numImported := 2, numSkipped := 0, numErrors := 1, backup := [],
         errorRows := [3] } : ImpRes).numSkipped =
      (([[("task", some "a")], [("task", some "")], [("task", some "b")]] :
          List InputRow).filter (fun row => truthy (cleanRow row).task)).length ∧
    (false = true →
      ({ numImported := 2, numSkipped := 0, numErrors := 1, backup := [],
         errorRows := [3] } : ImpRes).numSkipped = 0 ∧
      ([["G0", "a", "Medium", "", "2024-01-01", "", "", "Not Started", "", "", ""],
        ["G1", "b", "Medium", "", "2024-01-01", "", "", "Not Started", "", "", ""]] : Table) =
        write_tasks ((([[("task", some "a")], [("task", some "")],
            [("task", some "b")]] : List InputRow).filter
          (fun row => truthy (cleanRow row).task)).map
          (fun row => processRow "2024-01-01" (cleanRow row)))) ∧
    (false = false →
      (∀ row ∈ ([[("task", some "a")], [("task", some "")], [("task", some "b")]] :
          List InputRow), truthy (cleanRow row).task = true →
        ¬ (processRow "2024-01-01" (cleanRow row)).id ∈
          (read_tasks ([] : Table)).map (fun r => r.id)) →
      ({ numImported := 2, numSkipped := 0, numErrors := 1, backup := [],
         errorRows := [3] } : ImpRes).numSkipped = 0) :=
  imp_tasks_backup_errors_and_counts (fun n => "G" ++ toString n) "2024-01-01" []
    [[("task", some "a")], [("task", some "")], [("task", some "b")]] false
    { numImported := 2, numSkipped := 0, numErrors := 1, backup := [], errorRows := [3] }
    [["G0", "a", "Medium", "", "2024-01-01", "", "", "Not Started", "", "", ""],
     ["G1", "b", "Medium", "", "2024-01-01", "", "", "Not Started", "", "", ""]]
    rfl

/-- The POST body of the C8 scenario: only the title key is supplied. -/
def writeSpecDict : PyDict :=
  { id := none, task := some (some "Write spec"), priority := none, description := none,
    created_date := none, assignee := none, opened_date := none, status := none,
    completion_date := none, category := none, tags := none }

/-- Inversion of add_task on the success path, for a caller-supplied truthy id
and truthy created date, when the id is fresh. -/
theorem add_task_success {genId now : String} {table : Table} {d : Rec} {s : String}
    (hds : d.id = some s) (hs : s ≠ "") (hcr : truthy d.created_date = true)
    (hfr : ∀ r ∈ read_tasks table, ¬ r.id = some s) :
    add_task genId now table d =
      .ok (s, write_tasks (read_tasks table ++ [{ d with id := some s }])) := by
  simp only [add_task, hds]
  rw [if_neg hs]
  have hany : (read_tasks table).any (fun t => decide (t.id = some s)) = false :=
    List.any_eq_false.mpr (fun r hr => by simpa using hfr r hr)
  simp only [hcr, if_true, hany, Bool.false_eq_true, if_false]

/-- C8: adding a record that supplies only the title returns the generated id,
and get_task_by_id on that id then returns a record whose status is Not
Started, whose priority is Medium and whose created_date is the nonempty
clock string, provided the generated uuid and the clock string are nonempty
whitespace-trimmed strings (uuids and isoformat output always are), the clock
string is accepted by fromisoformat, and the generated id is fresh for the
stored table, also after codec normalization. -/
theorem create_write_spec_defaults (env : Env) (table : Table)
    (hgen : env.genId ≠ "") (hgenS : pyStrip env.genId = env.genId)
    (hnow : env.now ≠ "") (hnowS : pyStrip env.now = env.now)
    (hiso : is_valid_datetime env env.now = true)
    (hfresh : ∀ r ∈ read_tasks table,
      ¬ r.id = some env.genId ∧ ¬ normField r.id = some env.genId) :
    ∃ t1 : Table,
      create_task_flow env table writeSpecDict = .ok (env.genId, t1) ∧
      ∃ r : Rec, get_task_by_id t1 env.genId = some r ∧
        r.status = some "Not Started" ∧ r.priority = some "Medium" ∧
        r.created_date = some env.now := by
  have hvalid : validateOk env
      { id := env.genId, task := some "Write spec", priority := some "Medium",
        description := some "", created_date := env.now, assignee := some "",
        opened_date := none, status := some "Not Started", completion_date := none,
        category := some "", tags := some "" } = true := by
    simp only [validateOk, hiso, Bool.or_true, truthy_none, Bool.not_false, Bool.true_or]
    rfl
  have hfd : task_from_dict env writeSpecDict = .ok
      { id := env.genId, task := some "Write spec", priority := some "Medium",
        description := some "", created_date := env.now, assignee := some "",
        opened_date := none, status := some "Not Started", completion_date := none,
        category := some "", tags := some "" } := by
    unfold task_from_dict writeSpecDict
    simp only [pyGet]
    rw [if_pos hvalid]
  have hadd := @add_task_success env.genId env.now table
    { id := some env.genId, task := some "Write spec", priority := some "Medium",
      description := some "", created_date := some env.now, assignee := some "",
      opened_date := none, status := some "Not Started", completion_date := none,
      category := some "", tags := some "", lastModified := none }
    env.genId rfl hgen (by simp [truthy, hnow]) (fun r hr => (hfresh r hr).1)
  refine ⟨write_tasks (read_tasks table ++
      [{ id := some env.genId, task := some "Write spec", priority := some "Medium",
         description := some "", created_date := some env.now, assignee := some "",
         opened_date := none, status := some "Not Started", completion_date := none,
         category := some "", tags := some "", lastModified := none }]), ?_, ?_⟩
  · unfold create_task_flow
    rw [hfd]
    exact hadd
  · have hidn : normField (some env.genId) = some env.genId := by
      simp only [normField, formatCell, parseCell]
      rw [if_neg hgen, hgenS]
    have hcrn : normFieldDT (some env.now) = some env.now := by
      simp only [normFieldDT, formatDT, hnowS]
      rw [if_neg hnow]
      simp only [parseCellDT, parseCell]
      rw [if_neg hnow, hnowS]
      simp [hnow]
    have hk : normKeep
        { id := some env.genId, task := some "Write spec", priority := some "Medium",
          description := some "", created_date := some env.now, assignee := some "",
          opened_date := none, status := some "Not Started", completion_date := none,
          category := some "", tags := some "", lastModified := none } = some (normRec
        { id := some env.genId, task := some "Write spec", priority := some "Medium",
          description := some "", created_date := some env.now, assignee := some "",
          opened_date := none, status := some "Not Started", completion_date := none,
          category := some "", tags := some "", lastModified := none }) := by
      unfold normKeep
      rw [if_pos (rowAny_format_of_task (by rfl))]
    unfold get_task_by_id
    rw [read_write, List.filterMap_append, List.find?_append]
    have hnone : ((read_tasks table).filterMap normKeep).find?
        (fun t => decide (t.id = some env.genId)) = none := by
      rw [List.find?_eq_none]
      intro x hx
      obtain ⟨r, hr, hxr⟩ := List.mem_filterMap.mp hx
      have hxnorm : x = normRec r := by
        unfold normKeep at hxr
        split at hxr
        · exact (Option.some.inj hxr).symm
        · cases hxr
      subst hxnorm
      have h2 := (hfresh r hr).2
      simpa [normRec] using h2
    rw [hnone]
    have hsingle : List.filterMap normKeep
        [{ id := some env.genId, task := some "Write spec", priority := some "Medium",
           description := some "", created_date := some env.now, assignee := some "",
           opened_date := none, status := some "Not Started", completion_date := none,
           category := some "", tags := some "", lastModified := none }] = [normRec
        { id := some env.genId, task := some "Write spec", priority := some "Medium",
          description := some "", created_date := some env.now, assignee := some "",
          opened_date := none, status := some "Not Started", completion_date := none,
          category := some "", tags := some "", lastModified := none }] := by
      simp [List.filterMap_cons, hk]
    rw [hsingle]
    refine ⟨normRec
        { id := some env.genId, task := some "Write spec", priority := some "Medium",
          description := some "", created_date := some env.now, assignee := some "",
          opened_date := none, status := some "Not Started", completion_date := none,
          category := some "", tags := some "", lastModified := none }, ?_, ?_, ?_, ?_⟩
    · have hpred : (fun t : Rec => decide (t.id = some env.genId)) (normRec
          { id := some env.genId, task := some "Write spec", priority := some "Medium",
            description := some "", created_date := some env.now, assignee := some "",
            opened_date := none, status := some "Not Started", completion_date := none,
            category := some "", tags := some "", lastModified := none }) = true := by
        simp only [normRec]
        simp [hidn]
      simp [List.find?_cons, hpred]
    · show normField (some "Not Started") = some "Not Started"
      decide
    · show normField (some "Medium") = some "Medium"
      decide
    · show normFieldDT (some env.now) = some env.now
      exact hcrn

/-- C8 witness: the scenario at the empty table with concrete uuid and clock. -/
theorem create_write_spec_defaults_witness :
    ∃ t1 : Table,
      create_task_flow { genId := "gid", now := "2024-01-05", fromisoOk := fun _ => true }
        [] writeSpecDict = .ok ("gid", t1) ∧
      ∃ r : Rec, get_task_by_id t1 "gid" = some r ∧
        r.status = some "Not Started" ∧ r.priority = some "Medium" ∧
        r.created_date = some "2024-01-05" :=
  create_write_spec_defaults
    { genId := "gid", now := "2024-01-05", fromisoOk := fun _ => true } []
    (by decide) (by decide) (by decide) (by decide) (by decide) (by decide)

end TaskApp
